import Mathlib

/-!
Verification of the WALKOFF execution-database schema layer
(`walkoff/executiondb/schemas.py`): a shallow embedding of the
document model, the per-schema dump/load logic, the skip-value
stripping, the Argument mutual-exclusivity check, the
post-construction element validation, and the type-to-schema
registry, together with theorems settling the specified properties.

Documents are JSON-shaped values.  Entity objects are records whose
attributes are `Option`-valued where the underlying Python attribute
can be `None`.  Fallible loading is `Except` over an error map from
field names to message values, mirroring marshmallow's error dicts.

The marshmallow-declared fields of each schema in the source file are
embedded directly.  Behaviour supplied by repository code that is not
part of the source file under verification (the SQLAlchemy model
constructors and their defaults, the `valid_operators` enum of the
operator column, and `ExecutionElement.validate`) is modelled from the
specification and marked `Modelled from the spec:` at its definition.
-/

namespace WalkoffSchemas

/-- JSON-shaped document values: the inbound/outbound document format
of the schema layer (nested key-value documents). -/
inductive JValue where
  | null
  | bool (b : Bool)
  | int (n : Int)
  | str (s : String)
  | list (xs : List JValue)
  | obj (fields : List (String × JValue))

/-- Error maps: marshmallow error dictionaries, field name to message
value (a list of message strings, or a nested error object). -/
abbrev ErrMap := List (String × JValue)

/-- Key lookup in a document object, first match wins (Python dict
access on parsed documents, which have unique keys). -/
def getField : List (String × JValue) → String → Option JValue
  | [], _ => none
  | (k, v) :: rest, key => if k = key then some v else getField rest key

/-- Python truthiness `bool(v)` of a document value. -/
def jTruthy : JValue → Bool
  | .null => false
  | .bool b => b
  | .int n => n != 0
  | .str s => s != ""
  | .list xs => !xs.isEmpty
  | .obj fs => !fs.isEmpty

/-- Membership of a serialized value in
`ExecutionBaseSchema.__skipvalues = (None, [], [{}])`, decided by
Python equality as the source's `value not in self.__skipvalues` is. -/
def isSkipValue : JValue → Bool
  | .null => true
  | .list [] => true
  | .list [.obj []] => true
  | _ => false

/-- `ExecutionBaseSchema.remove_skip_values`: drops every field of the
serialized data whose value is one of the skip values. -/
def remove_skip_values (data : List (String × JValue)) : List (String × JValue) :=
  data.filter (fun kv => !isSkipValue kv.2)

/-- A marshmallow `ValidationError`: a message attributed to a list of
field names. -/
structure MarshValidationError where
  message : String
  fieldNames : List String
deriving DecidableEq

/-- `has_value` of `ArgumentSchema.validate_argument`: presence of the
`value` key in the inbound data. -/
def has_value (data : List (String × JValue)) : Bool :=
  (getField data "value").isSome

/-- `has_reference` of `ArgumentSchema.validate_argument`: presence of
the `reference` key with a truthy value. -/
def has_reference (data : List (String × JValue)) : Bool :=
  match getField data "reference" with
  | some v => jTruthy v
  | none => false

/-- `ArgumentSchema.validate_argument`: raises a `ValidationError` on
the `value` field when both or neither of value/reference are present. -/
def validate_argument (data : List (String × JValue)) : Option MarshValidationError :=
  if (!has_value data && !has_reference data) || (has_value data && has_reference data) then
    some ⟨"Arguments must have either a value or a reference.", ["value"]⟩
  else none

/-- Renders a validation error the way marshmallow folds it into the
error dictionary: one entry per named field carrying the message. -/
def errEntries (e : MarshValidationError) : ErrMap :=
  e.fieldNames.map (fun f => (f, .list [.str e.message]))

/-- Argument objects (leaf `ExecutionBaseSchema` elements).  Attributes
are optional where the Python attribute can be `None`; `value` is a raw
payload and `none` stands for Python `None`. -/
structure Argument where
  name : Option String
  value : Option JValue
  reference : Option String
  selection : List JValue

/-- Position objects: required numeric `x`, `y`. -/
structure Position where
  x : Option Int
  y : Option Int

/-- Transform objects: required `app_name`/`action_name` plus owned
arguments (`ActionableSchema` fields). -/
structure Transform where
  app_name : Option String
  action_name : Option String
  arguments : List Argument

/-- Condition objects: `ActionableSchema` fields plus owned transforms
and the defaulted `is_negated` flag. -/
structure Condition where
  app_name : Option String
  action_name : Option String
  is_negated : Option Bool
  transforms : List Transform
  arguments : List Argument

/-- ConditionalExpression objects: self-similar via
`child_expressions` (the schema nests itself), with the enum-valued
`operator` and defaulted `is_negated`.  The `parent` back-reference is
not part of the tree model (ownership tree of the data model). -/
inductive ConditionalExpression where
  | mk (operator : Option String) (is_negated : Option Bool)
       (conditions : List Condition)
       (child_expressions : List ConditionalExpression)

/-- Branch objects: required endpoint references, optional condition
expression, defaulted `priority` and `status`. -/
structure Branch where
  source_id : Option Int
  destination_id : Option Int
  condition : Option ConditionalExpression
  priority : Option Int
  status : Option String

/-- Action objects: identifier key (enabling update-in-place),
`ActionableSchema` fields, optional trigger expression and position. -/
structure Action where
  id : Option Int
  app_name : Option String
  action_name : Option String
  arguments : List Argument
  trigger : Option ConditionalExpression
  position : Option Position

/-- Workflow objects: required name, owned actions and branches. -/
structure Workflow where
  name : Option String
  actions : List Action
  branches : List Branch

/-- Playbook objects: required name and owned workflows. -/
structure Playbook where
  name : Option String
  workflows : List Workflow

/-- Serializes an optional string attribute (Python `None` becomes
document null). -/
def optStr : Option String → JValue
  | some s => .str s
  | none => .null

/-- Serializes an optional integer attribute. -/
def optInt : Option Int → JValue
  | some n => .int n
  | none => .null

/-- Serializes an optional boolean attribute. -/
def optBool : Option Bool → JValue
  | some b => .bool b
  | none => .null

/-- Serializes an optional nested element with a given dumper. -/
def optDump (f : α → JValue) : Option α → JValue
  | some x => f x
  | none => .null

/-- `ArgumentSchema` dump: serialize the declared fields (`name`, raw
`value`, `reference`, `selection`) and strip skip values. -/
def dumpArgument (a : Argument) : JValue :=
  .obj (remove_skip_values
    [("name", optStr a.name),
     ("value", match a.value with | some v => v | none => .null),
     ("reference", optStr a.reference),
     ("selection", .list a.selection)])

/-- `PositionSchema` dump: serialize `x` and `y` and strip skip values. -/
def dumpPosition (p : Position) : JValue :=
  .obj (remove_skip_values [("x", optInt p.x), ("y", optInt p.y)])

/-- `TransformSchema` dump: `ActionableSchema` fields with nested
argument dumps, stripped. -/
def dumpTransform (t : Transform) : JValue :=
  .obj (remove_skip_values
    [("app_name", optStr t.app_name),
     ("action_name", optStr t.action_name),
     ("arguments", .list (t.arguments.map dumpArgument))])

/-- `ConditionSchema` dump: `ActionableSchema` fields plus
`is_negated` and nested transform dumps, stripped. -/
def dumpCondition (c : Condition) : JValue :=
  .obj (remove_skip_values
    [("app_name", optStr c.app_name),
     ("action_name", optStr c.action_name),
     ("is_negated", optBool c.is_negated),
     ("transforms", .list (c.transforms.map dumpTransform)),
     ("arguments", .list (c.arguments.map dumpArgument))])

/-- Decodes a required string field (`field_for(..., required=True)` /
`fields.Str(required=True)`). -/
def reqString (data : List (String × JValue)) (key : String) : Except ErrMap String :=
  match getField data key with
  | some (.str s) => .ok s
  | some _ => .error [(key, .list [.str "Not a valid string."])]
  | none => .error [(key, .list [.str "Missing data for required field."])]

/-- Decodes a required integer field. -/
def reqInt (data : List (String × JValue)) (key : String) : Except ErrMap Int :=
  match getField data key with
  | some (.int n) => .ok n
  | some _ => .error [(key, .list [.str "Not a valid integer."])]
  | none => .error [(key, .list [.str "Missing data for required field."])]

/-- Python `v is None` on document values. -/
def jIsNull : JValue → Bool
  | .null => true
  | _ => false

/-- Decodes the raw `value` payload of an Argument (`fields.Raw()`):
absent or null yields attribute `None`, anything else passes through. -/
def rawValueField (data : List (String × JValue)) : Option JValue :=
  match getField data "value" with
  | none => none
  | some v => if jIsNull v then none else some v

/-- Decodes the optional `reference` string of an Argument. -/
def referenceField (data : List (String × JValue)) : Except ErrMap (Option String) :=
  match getField data "reference" with
  | none => .ok none
  | some .null => .ok none
  | some (.str s) => .ok (some s)
  | some _ => .error [("reference", .list [.str "Not a valid string."])]

/-- Decodes the optional `selection` list of an Argument
(`fields.List(fields.Raw())`); absent yields the empty sequence. -/
def selectionField (data : List (String × JValue)) : Except ErrMap (List JValue) :=
  match getField data "selection" with
  | none => .ok []
  | some (.list xs) => .ok xs
  | some _ => .error [("selection", .list [.str "Not a valid list."])]

/-- Decodes an optional boolean field with a load-time default.
Modelled from the spec: the model constructors (not part of the source
file under verification) substitute the declared default when the key
is absent from the inbound document. -/
def boolFieldD (data : List (String × JValue)) (key : String) (dflt : Bool) :
    Except ErrMap (Option Bool) :=
  match getField data key with
  | none => .ok (some dflt)
  | some (.bool b) => .ok (some b)
  | some _ => .error [(key, .list [.str "Not a valid boolean."])]

/-- Decodes an optional integer field with a load-time default
(see `boolFieldD`; used for Branch `priority`, default 999). -/
def intFieldD (data : List (String × JValue)) (key : String) (dflt : Int) :
    Except ErrMap (Option Int) :=
  match getField data key with
  | none => .ok (some dflt)
  | some (.int n) => .ok (some n)
  | some _ => .error [(key, .list [.str "Not a valid integer."])]

/-- Decodes an optional string field with a load-time default
(see `boolFieldD`; used for Branch `status`, default Success). -/
def strFieldD (data : List (String × JValue)) (key : String) (dflt : String) :
    Except ErrMap (Option String) :=
  match getField data key with
  | none => .ok (some dflt)
  | some (.str s) => .ok (some s)
  | some _ => .error [(key, .list [.str "Not a valid string."])]

/-- Decodes an optional, defaultless integer field (the `id` key of an
Action document; an identifier not matching a stored instance falls
back to constructing a new instance carrying the decoded keys). -/
def idField (data : List (String × JValue)) : Except ErrMap (Option Int) :=
  match getField data "id" with
  | none => .ok none
  | some (.int n) => .ok (some n)
  | some _ => .error [("id", .list [.str "Not a valid integer."])]

/-- Element-wise fallible load of a sequence of nested documents,
first error propagating. -/
def mapExcept (f : JValue → Except ErrMap α) : List JValue → Except ErrMap (List α)
  | [] => .ok []
  | x :: xs =>
    match f x with
    | .error em => .error em
    | .ok y =>
      match mapExcept f xs with
      | .ok ys => .ok (y :: ys)
      | .error em => .error em

/-- Loads a list-valued nested field: absent yields the empty list;
element errors propagate wrapped under the field's key. -/
def listFieldWith (f : JValue → Except ErrMap α)
    (data : List (String × JValue)) (key : String) : Except ErrMap (List α) :=
  match getField data key with
  | none => .ok []
  | some (.list xs) =>
    match mapExcept f xs with
    | .ok ys => .ok ys
    | .error em => .error [(key, .obj em)]
  | some _ => .error [(key, .list [.str "Invalid type."])]

/-- Loads an optional (singly) nested field: absent or null yields
`none`; errors propagate wrapped under the field's key. -/
def optFieldWith (f : JValue → Except ErrMap α)
    (data : List (String × JValue)) (key : String) : Except ErrMap (Option α) :=
  match getField data key with
  | none => .ok none
  | some .null => .ok none
  | some v =>
    match f v with
    | .ok x => .ok (some x)
    | .error em => .error [(key, .obj em)]

/-- The generic wrong-input-type schema error. -/
def schemaTypeError : ErrMap := [("_schema", .list [.str "Invalid input type."])]

/-- `ArgumentSchema` load: run the mutual-exclusivity check on the
inbound data, decode the declared fields, then construct the instance
(`make_instance` pops `value`/`reference` and assigns the rest). -/
def loadArgument (v : JValue) : Except ErrMap Argument :=
  match v with
  | .obj data =>
    match validate_argument data with
    | some e => .error (errEntries e)
    | none =>
      match reqString data "name", referenceField data, selectionField data with
      | .ok nm, .ok rf, .ok sel => .ok ⟨some nm, rawValueField data, rf, sel⟩
      | .error em, _, _ => .error em
      | _, .error em, _ => .error em
      | _, _, .error em => .error em
  | _ => .error schemaTypeError

/-- `PositionSchema` load: required `x` and `y`. -/
def loadPosition (v : JValue) : Except ErrMap Position :=
  match v with
  | .obj data =>
    match reqInt data "x", reqInt data "y" with
    | .ok x, .ok y => .ok ⟨some x, some y⟩
    | .error em, _ => .error em
    | _, .error em => .error em
  | _ => .error schemaTypeError

/-- `TransformSchema` load: required names plus nested arguments. -/
def loadTransform (v : JValue) : Except ErrMap Transform :=
  match v with
  | .obj data =>
    match reqString data "app_name", reqString data "action_name",
          listFieldWith loadArgument data "arguments" with
    | .ok an, .ok acn, .ok args => .ok ⟨some an, some acn, args⟩
    | .error em, _, _ => .error em
    | _, .error em, _ => .error em
    | _, _, .error em => .error em
  | _ => .error schemaTypeError

/-- `ConditionSchema` load: required names, defaulted `is_negated`,
nested transforms and arguments. -/
def loadCondition (v : JValue) : Except ErrMap Condition :=
  match v with
  | .obj data =>
    match reqString data "app_name", reqString data "action_name",
          boolFieldD data "is_negated" false with
    | .ok an, .ok acn, .ok neg =>
      match listFieldWith loadTransform data "transforms",
            listFieldWith loadArgument data "arguments" with
      | .ok ts, .ok args => .ok ⟨some an, some acn, neg, ts, args⟩
      | .error em, _ => .error em
      | _, .error em => .error em
    | .error em, _, _ => .error em
    | _, .error em, _ => .error em
    | _, _, .error em => .error em
  | _ => .error schemaTypeError

/-- Modelled from the spec: `valid_operators`, imported by the source
from the ConditionalExpression module (not part of the source file
under verification); the allowed operator set is and, or, xor. -/
def valid_operators : List String := ["and", "or", "xor"]

/-- Proof-producing form of `getField` soundness: a successful lookup
is a member of the field list (used for termination of the recursive
ConditionalExpression loader). -/
def getField_mem_pf (l : List (String × JValue)) (k : String) (v : JValue)
    (h : getField l k = some v) : (k, v) ∈ l := by
  induction l with
  | nil => simp [getField] at h
  | cons kv rest ih =>
    obtain ⟨k', v'⟩ := kv
    rw [getField] at h
    split at h
    · next heq =>
      injection h with h2
      subst heq; subst h2
      exact List.mem_cons_self _ _
    · exact List.mem_cons_of_mem _ (ih h)

mutual

/-- `ConditionalExpressionSchema` dump: declared fields with nested
condition and self-nested child expression dumps, stripped.  The
`parent` back-reference is not a tree field (see the registry/meta
model below for what the source's `Meta.excludes` actually does). -/
def dumpConditionalExpression : ConditionalExpression → JValue
  | .mk op neg conds children =>
    .obj (remove_skip_values
      [("operator", optStr op),
       ("is_negated", optBool neg),
       ("conditions", .list (conds.map dumpCondition)),
       ("child_expressions", .list (dumpCEList children))])

/-- Element-wise dump of a list of child expressions, order preserved. -/
def dumpCEList : List ConditionalExpression → List JValue
  | [] => []
  | c :: cs => dumpConditionalExpression c :: dumpCEList cs

end

/-- Decodes the `operator` field: schema-declared load default is
`and` (`missing='and'` in the source).  Modelled from the spec: the
enum-membership validation of the operator column (defined with the
model, not in the source file under verification) rejects values
outside `valid_operators`. -/
def operatorField (data : List (String × JValue)) : Except ErrMap String :=
  match getField data "operator" with
  | none => .ok "and"
  | some (.str s) =>
    if valid_operators.contains s then .ok s
    else .error [("operator", .list [.str "Not a valid choice."])]
  | some _ => .error [("operator", .list [.str "Not a valid string."])]

mutual

/-- `ConditionalExpressionSchema` load: operator (defaulted, enum
checked), `is_negated` (defaulted), nested conditions, and self-nested
child expressions of unbounded depth. -/
def loadConditionalExpression (v : JValue) : Except ErrMap ConditionalExpression :=
  match v with
  | .obj data =>
    match operatorField data, boolFieldD data "is_negated" false with
    | .ok op, .ok neg =>
      match listFieldWith loadCondition data "conditions" with
      | .error em => .error em
      | .ok conds =>
        match h : getField data "child_expressions" with
        | none => .ok (.mk (some op) neg conds [])
        | some (.list xs) =>
          match loadCEList xs with
          | .ok children => .ok (.mk (some op) neg conds children)
          | .error em => .error [("child_expressions", .obj em)]
        | some _ => .error [("child_expressions", .list [.str "Invalid type."])]
    | .error em, _ => .error em
    | _, .error em => .error em
  | _ => .error schemaTypeError
termination_by sizeOf v
decreasing_by
  have hm := getField_mem_pf data _ _ h
  have hlt := List.sizeOf_lt_of_mem hm
  simp only [Prod.mk.sizeOf_spec, JValue.list.sizeOf_spec] at hlt
  simp only [JValue.obj.sizeOf_spec]
  omega

/-- Element-wise load of a list of child expression documents. -/
def loadCEList : List JValue → Except ErrMap (List ConditionalExpression)
  | [] => .ok []
  | x :: xs =>
    match loadConditionalExpression x with
    | .error em => .error em
    | .ok c =>
      match loadCEList xs with
      | .ok cs => .ok (c :: cs)
      | .error em => .error em
termination_by xs => sizeOf xs
decreasing_by
  all_goals simp
  all_goals omega

end

/-- `BranchSchema` dump: declared fields (endpoint references,
optional condition, priority, status), stripped.  No default is
substituted on dump: a missing (None) attribute serializes to null and
is stripped. -/
def dumpBranch (b : Branch) : JValue :=
  .obj (remove_skip_values
    [("source_id", optInt b.source_id),
     ("destination_id", optInt b.destination_id),
     ("condition", optDump dumpConditionalExpression b.condition),
     ("priority", optInt b.priority),
     ("status", optStr b.status)])

/-- `ActionSchema` dump: identifier key, `ActionableSchema` fields,
optional trigger and position, stripped. -/
def dumpAction (a : Action) : JValue :=
  .obj (remove_skip_values
    [("id", optInt a.id),
     ("app_name", optStr a.app_name),
     ("action_name", optStr a.action_name),
     ("arguments", .list (a.arguments.map dumpArgument)),
     ("trigger", optDump dumpConditionalExpression a.trigger),
     ("position", optDump dumpPosition a.position)])

/-- `WorkflowSchema` dump: required name, nested actions and branches,
stripped (`playbook` is excluded by the schema's Meta). -/
def dumpWorkflow (w : Workflow) : JValue :=
  .obj (remove_skip_values
    [("name", optStr w.name),
     ("actions", .list (w.actions.map dumpAction)),
     ("branches", .list (w.branches.map dumpBranch))])

/-- `PlaybookSchema` dump: required name and nested workflows,
stripped. -/
def dumpPlaybook (p : Playbook) : JValue :=
  .obj (remove_skip_values
    [("name", optStr p.name),
     ("workflows", .list (p.workflows.map dumpWorkflow))])

/-- `BranchSchema` load: required endpoints, optional nested
condition, defaulted priority (999) and status (Success).  Modelled
from the spec: the load-time defaults are supplied by the Branch model
constructor, which is not part of the source file under verification. -/
def loadBranch (v : JValue) : Except ErrMap Branch :=
  match v with
  | .obj data =>
    match reqInt data "source_id", reqInt data "destination_id" with
    | .ok sid, .ok did =>
      match optFieldWith loadConditionalExpression data "condition",
            intFieldD data "priority" 999, strFieldD data "status" "Success" with
      | .ok cond, .ok prio, .ok st => .ok ⟨some sid, some did, cond, prio, st⟩
      | .error em, _, _ => .error em
      | _, .error em, _ => .error em
      | _, _, .error em => .error em
    | .error em, _ => .error em
    | _, .error em => .error em
  | _ => .error schemaTypeError

/-- `ActionSchema` load: identifier key, required names, nested
arguments, optional trigger and position. -/
def loadAction (v : JValue) : Except ErrMap Action :=
  match v with
  | .obj data =>
    match idField data, reqString data "app_name", reqString data "action_name" with
    | .ok i, .ok an, .ok acn =>
      match listFieldWith loadArgument data "arguments",
            optFieldWith loadConditionalExpression data "trigger",
            optFieldWith loadPosition data "position" with
      | .ok args, .ok trig, .ok pos => .ok ⟨i, some an, some acn, args, trig, pos⟩
      | .error em, _, _ => .error em
      | _, .error em, _ => .error em
      | _, _, .error em => .error em
    | .error em, _, _ => .error em
    | _, .error em, _ => .error em
    | _, _, .error em => .error em
  | _ => .error schemaTypeError

/-- `WorkflowSchema` load: required name, nested actions and branches. -/
def loadWorkflow (v : JValue) : Except ErrMap Workflow :=
  match v with
  | .obj data =>
    match reqString data "name", listFieldWith loadAction data "actions",
          listFieldWith loadBranch data "branches" with
    | .ok nm, .ok acts, .ok brs => .ok ⟨some nm, acts, brs⟩
    | .error em, _, _ => .error em
    | _, .error em, _ => .error em
    | _, _, .error em => .error em
  | _ => .error schemaTypeError

/-- `PlaybookSchema` load: required name and nested workflows. -/
def loadPlaybook (v : JValue) : Except ErrMap Playbook :=
  match v with
  | .obj data =>
    match reqString data "name", listFieldWith loadWorkflow data "workflows" with
    | .ok nm, .ok wfs => .ok ⟨some nm, wfs⟩
    | .error em, _ => .error em
    | _, .error em => .error em
  | _ => .error schemaTypeError

/-- Truthiness of an optional reference attribute (Python
`bool(reference)`: None and the empty string are falsy). -/
def refTruthy : Option String → Bool
  | some s => s != ""
  | none => false

/-- Well-formed Argument objects per the data model: name present and
exactly one of a value or a truthy reference.  With `strict` set, the
raw payloads additionally avoid the skip-value shapes, which is what
dumping can preserve (see the round-trip theorems). -/
def wfArgument (strict : Bool) (a : Argument) : Bool :=
  a.name.isSome && (a.value.isSome != refTruthy a.reference) &&
  (!strict ||
    ((match a.value with | some v => !isSkipValue v | none => true) &&
     (match a.selection with | [.obj []] => false | _ => true)))

/-- Well-formed Position objects: both coordinates present. -/
def wfPosition (p : Position) : Bool :=
  p.x.isSome && p.y.isSome

/-- Well-formed Transform objects: required names present, arguments
well-formed. -/
def wfTransform (strict : Bool) (t : Transform) : Bool :=
  t.app_name.isSome && t.action_name.isSome && t.arguments.all (wfArgument strict)

/-- Well-formed Condition objects: required names present, defaults
materialized, children well-formed. -/
def wfCondition (strict : Bool) (c : Condition) : Bool :=
  c.app_name.isSome && c.action_name.isSome && c.is_negated.isSome &&
  c.transforms.all (wfTransform strict) && c.arguments.all (wfArgument strict)

mutual

/-- Well-formed ConditionalExpression objects: operator inside the
allowed enum set, defaults materialized, children well-formed. -/
def wfConditionalExpression (strict : Bool) : ConditionalExpression → Bool
  | .mk op neg conds children =>
    (match op with | some s => valid_operators.contains s | none => false) &&
    neg.isSome && conds.all (wfCondition strict) && wfCEList strict children

/-- Well-formedness of a list of child expressions. -/
def wfCEList (strict : Bool) : List ConditionalExpression → Bool
  | [] => true
  | c :: cs => wfConditionalExpression strict c && wfCEList strict cs

end

/-- Well-formed Branch objects: endpoints and defaults present,
condition well-formed when set. -/
def wfBranch (strict : Bool) (b : Branch) : Bool :=
  b.source_id.isSome && b.destination_id.isSome &&
  b.priority.isSome && b.status.isSome &&
  (match b.condition with
   | some e => wfConditionalExpression strict e
   | none => true)

/-- Well-formed Action objects: required names present, children
well-formed. -/
def wfAction (strict : Bool) (a : Action) : Bool :=
  a.app_name.isSome && a.action_name.isSome &&
  a.arguments.all (wfArgument strict) &&
  (match a.trigger with
   | some e => wfConditionalExpression strict e
   | none => true) &&
  (match a.position with
   | some p => wfPosition p
   | none => true)

/-- Branch endpoint references resolve to Action identifiers within
the same workflow (data-model invariant of the containment tree). -/
def branchRefsOk (w : Workflow) : Bool :=
  let ids := w.actions.filterMap Action.id
  w.branches.all (fun b =>
    (match b.source_id with | some n => ids.contains n | none => false) &&
    (match b.destination_id with | some n => ids.contains n | none => false))

/-- Well-formed Workflow objects: name present, children well-formed,
branch endpoint references valid. -/
def wfWorkflow (strict : Bool) (w : Workflow) : Bool :=
  w.name.isSome && w.actions.all (wfAction strict) &&
  w.branches.all (wfBranch strict) && branchRefsOk w

/-- Well-formed Playbook objects: name present, workflows well-formed. -/
def wfPlaybook (strict : Bool) (p : Playbook) : Bool :=
  p.name.isSome && p.workflows.all (wfWorkflow strict)

/-- Modelled from the spec: the structural check `Workflow.validate`
performs.  `ExecutionElement.validate` is not part of the source file
under verification; per the data model, Branch `source_id` and
`destination_id` must reference Action identifiers within the same
workflow, and a violating element reports a structural error carrying
its identifying name and a list of violation messages. -/
def workflowValidationErrors (w : Workflow) : ErrMap :=
  match w.branches.filterMap (fun b =>
    match b.source_id with
    | some n => if (w.actions.filterMap Action.id).contains n then none
                else some (JValue.str "Branch source_id is not an action of this workflow.")
    | none => none) ++
    w.branches.filterMap (fun b =>
    match b.destination_id with
    | some n => if (w.actions.filterMap Action.id).contains n then none
                else some (JValue.str "Branch destination_id is not an action of this workflow.")
    | none => none) with
  | [] => []
  | msgs => [(w.name.getD "", .list msgs)]

/-- Modelled from the spec: the Element Validator run over every
constructed object in a loaded Playbook subtree, merging each
violating element's errors keyed by that element's identifying name.
The only structural invariant the data model states for `validate()`
is the Branch endpoint-reference rule, so workflows are the only
elements that can contribute entries; all other subtree elements are
visited and contribute none. -/
def playbookValidationErrors (p : Playbook) : ErrMap :=
  (p.workflows.map workflowValidationErrors).flatten

/-- The marshmallow 2 `UnmarshalResult` pair returned by `load`: the
(possibly absent) constructed data and the error dictionary. -/
structure UnmarshalResult (α : Type) where
  data : Option α
  errors : ErrMap

/-- `ExecutionElementBaseSchema.load` for a Playbook document: run the
schema load; an `InvalidExecutionElement` raised during construction
is caught and turned into an empty-data result carrying the errors; on
an error-free construction, run `validate()` over the constructed
objects, catch any structural error, and fold it into the result's
error map keyed by the element's name.  The constructed data is kept
in the result even when validation errors are recorded (source lines
64 to 76 update `objs.errors` but leave `objs.data` untouched). -/
def elementLoadPlaybook (v : JValue) : UnmarshalResult Playbook :=
  match loadPlaybook v with
  | .error em => ⟨none, em⟩
  | .ok p => ⟨some p, playbookValidationErrors p⟩

/-- The model classes visible to the registry module: the nine
registered entity types plus the imported `ExecutionElement` base
class, which is not registered. -/
inductive ModelClass where
  | playbook
  | workflow
  | action
  | branch
  | conditionalExpression
  | condition
  | transform
  | position
  | argument
  | executionElement
deriving DecidableEq

/-- The schema classes of the source file. -/
inductive SchemaClass where
  | playbookSchema
  | workflowSchema
  | actionSchema
  | branchSchema
  | conditionalExpressionSchema
  | conditionSchema
  | transformSchema
  | positionSchema
  | argumentSchema
deriving DecidableEq

/-- The source's `_schema_lookup` dictionary, in source order: an
exact-type mapping from model class to schema class. -/
def schema_lookup : List (ModelClass × SchemaClass) :=
  [(.playbook, .playbookSchema),
   (.workflow, .workflowSchema),
   (.action, .actionSchema),
   (.branch, .branchSchema),
   (.conditionalExpression, .conditionalExpressionSchema),
   (.condition, .conditionSchema),
   (.transform, .transformSchema),
   (.position, .positionSchema),
   (.argument, .argumentSchema)]

/-- Exact-identity dictionary lookup on the registry
(`_schema_lookup[element.__class__]`): the concrete runtime class is
the key; no supertype walk happens. -/
def schemaLookupByClass (c : ModelClass) : Option SchemaClass :=
  (schema_lookup.find? (fun kv => kv.1 = c)).map Prod.snd

/-- A Python `KeyError` carrying the missing key. -/
structure KeyError where
  missingClass : ModelClass
deriving DecidableEq

/-- `dump_element` dispatch: look the element's concrete class up in
the registry; a missing key raises `KeyError`, which the function does
not catch (it propagates to the caller). -/
def dump_element_dispatch (c : ModelClass) : Except KeyError SchemaClass :=
  match schemaLookupByClass c with
  | some s => .ok s
  | none => .error ⟨c⟩

/-- Marshmallow `SchemaOpts` reading of a schema's `class Meta`: only
the recognized option name `exclude` is consulted; any other attribute
name is silently ignored.  A Meta declaration is modelled as the list
of its attribute names bound to field-name tuples. -/
def schemaOptsExclude (metaAttrs : List (String × List String)) : List String :=
  match metaAttrs.find? (fun kv => kv.1 = "exclude") with
  | some kv => kv.2
  | none => []

/-- The `class Meta` of `ConditionalExpressionSchema` as written in
the source (line 150): the attribute is spelled `excludes`. -/
def conditionalExpressionMetaAttrs : List (String × List String) :=
  [("excludes", ["parent"])]

/-- The `class Meta` of `WorkflowSchema` as written in the source
(line 195): the attribute is spelled `exclude`. -/
def workflowMetaAttrs : List (String × List String) :=
  [("exclude", ["playbook"])]

/-- Field extraction from a dumped element document. -/
def objFields : JValue → List (String × JValue)
  | .obj fs => fs
  | _ => []

/-!  Theorems.  Helper lemmas first, then one theorem per claim. -/

/-- Characterization of the skip-value membership test. -/
theorem isSkipValue_iff (v : JValue) :
    isSkipValue v = true ↔ (v = .null ∨ v = .list [] ∨ v = .list [.obj []]) := by
  cases v with
  | null => simp [isSkipValue]
  | bool b => simp [isSkipValue]
  | int n => simp [isSkipValue]
  | str s => simp [isSkipValue]
  | obj fs => simp [isSkipValue]
  | list xs =>
    rcases xs with _ | ⟨x, rest⟩
    · simp [isSkipValue]
    · rcases rest with _ | ⟨y, rest2⟩
      · cases x with
        | null => simp [isSkipValue]
        | bool b => simp [isSkipValue]
        | int n => simp [isSkipValue]
        | str s => simp [isSkipValue]
        | list xs2 => simp [isSkipValue]
        | obj fs2 => rcases fs2 with _ | ⟨f, fs3⟩ <;> simp [isSkipValue]
      · simp [isSkipValue]

/-- Values kept by the stripping pass are not skip values. -/
theorem mem_rsv_skip_false {l : List (String × JValue)} {k : String} {v : JValue}
    (h : (k, v) ∈ remove_skip_values l) : isSkipValue v = false := by
  unfold remove_skip_values at h
  have h2 := (List.mem_filter.mp h).2
  simpa using h2

/-- Stripping keeps an entry whose value is not a skip value. -/
theorem rsv_cons_keep {k : String} {v : JValue} {rest : List (String × JValue)}
    (h : isSkipValue v = false) :
    remove_skip_values ((k, v) :: rest) = (k, v) :: remove_skip_values rest := by
  simp [remove_skip_values, List.filter_cons, h]

/-- Stripping drops an entry whose value is a skip value. -/
theorem rsv_cons_skip {k : String} {v : JValue} {rest : List (String × JValue)}
    (h : isSkipValue v = true) :
    remove_skip_values ((k, v) :: rest) = remove_skip_values rest := by
  simp [remove_skip_values, List.filter_cons, h]

/-- C1: for every Argument document, with has_value the presence of
the value key and has_reference the presence of the reference key with
a truthy value: if both or neither hold, the schema check produces the
single validation error keyed to the value field with the fixed
message, and loading the document fails with exactly that error map;
if exactly one holds, the check passes. -/
theorem C1_argument_mutual_exclusivity (data : List (String × JValue)) :
    (has_value data = has_reference data →
      validate_argument data =
        some ⟨"Arguments must have either a value or a reference.", ["value"]⟩ ∧
      loadArgument (.obj data) =
        .error [("value", .list [.str "Arguments must have either a value or a reference."])]) ∧
    (has_value data ≠ has_reference data → validate_argument data = none) := by
  constructor
  · intro h
    have hv : validate_argument data =
        some ⟨"Arguments must have either a value or a reference.", ["value"]⟩ := by
      unfold validate_argument
      cases hva : has_value data <;> cases hrb : has_reference data <;> simp_all
    refine ⟨hv, ?_⟩
    simp [loadArgument, hv, errEntries]
  · intro h
    unfold validate_argument
    cases hva : has_value data <;> cases hrb : has_reference data <;> simp_all

/-- Witness for C1 at the empty document (neither key) and at a
document with only a value. -/
theorem C1_argument_mutual_exclusivity_witness :
    validate_argument [] =
      some ⟨"Arguments must have either a value or a reference.", ["value"]⟩ ∧
    loadArgument (.obj []) =
      .error [("value", .list [.str "Arguments must have either a value or a reference."])] ∧
    validate_argument [("value", .int 1)] = none :=
  ⟨((C1_argument_mutual_exclusivity []).1 rfl).1,
   ((C1_argument_mutual_exclusivity []).1 rfl).2,
   (C1_argument_mutual_exclusivity [("value", .int 1)]).2 (by decide)⟩

/-- C4: the dump stripping omits exactly the fields whose serialized
value is null, the empty sequence, or a sequence holding exactly one
empty mapping; all other values (including 0, false, the empty string,
and a bare empty mapping) are kept. -/
theorem C4_skip_value_stripping (data : List (String × JValue)) (k : String) (v : JValue)
    (hmem : (k, v) ∈ data) :
    ((k, v) ∈ remove_skip_values data ↔
      ¬(v = .null ∨ v = .list [] ∨ v = .list [.obj []])) := by
  unfold remove_skip_values
  rw [List.mem_filter]
  constructor
  · rintro ⟨-, hs⟩ hshape
    rw [Bool.not_eq_true' ] at hs
    rw [← isSkipValue_iff v] at hshape
    simp [hshape] at hs
  · intro hshape
    refine ⟨hmem, ?_⟩
    have : isSkipValue v = false := by
      rw [← Bool.not_eq_true, isSkipValue_iff]
      exact hshape
    simp [this]

/-- Witness for C4: a zero value is kept while a null sibling is
stripped. -/
theorem C4_skip_value_stripping_witness :
    ("a", JValue.int 0) ∈ remove_skip_values [("a", .int 0), ("b", .null)] :=
  (C4_skip_value_stripping [("a", .int 0), ("b", .null)] "a" (.int 0)
    (by simp)).mpr (by simp)

/-- C8: the source spells the Meta option of
ConditionalExpressionSchema `excludes`, which the schema options
reader ignores, so no field (in particular not the parent
back-reference) is excluded there; WorkflowSchema's correctly spelled
`exclude` shows the intended mechanism working. -/
theorem C8_meta_excludes_misspelled :
    schemaOptsExclude conditionalExpressionMetaAttrs = [] ∧
    ("parent" ∈ schemaOptsExclude conditionalExpressionMetaAttrs → False) ∧
    schemaOptsExclude workflowMetaAttrs = ["playbook"] := by
  refine ⟨rfl, ?_, rfl⟩
  intro h
  simp [schemaOptsExclude, conditionalExpressionMetaAttrs] at h

/-- C9: the registry dispatch is an exact-type dictionary lookup: each
of the nine registered model classes resolves to its schema, and the
unregistered ExecutionElement base class (the supertype of the
elements) raises a KeyError that dump_element does not catch. -/
theorem C9_registry_exact_dispatch :
    dump_element_dispatch .playbook = .ok .playbookSchema ∧
    dump_element_dispatch .workflow = .ok .workflowSchema ∧
    dump_element_dispatch .action = .ok .actionSchema ∧
    dump_element_dispatch .branch = .ok .branchSchema ∧
    dump_element_dispatch .conditionalExpression = .ok .conditionalExpressionSchema ∧
    dump_element_dispatch .condition = .ok .conditionSchema ∧
    dump_element_dispatch .transform = .ok .transformSchema ∧
    dump_element_dispatch .position = .ok .positionSchema ∧
    dump_element_dispatch .argument = .ok .argumentSchema ∧
    schemaLookupByClass .executionElement = none ∧
    dump_element_dispatch .executionElement = .error ⟨.executionElement⟩ :=
  ⟨rfl, rfl, rfl, rfl, rfl, rfl, rfl, rfl, rfl, rfl, rfl⟩

/-- Inversion for a successful Branch load: the loaded priority is
whatever the priority field decoder produced. -/
theorem loadBranch_ok_priority {data : List (String × JValue)} {b : Branch}
    (hload : loadBranch (.obj data) = .ok b) :
    intFieldD data "priority" 999 = .ok b.priority := by
  simp only [loadBranch] at hload
  split at hload
  · split at hload
    · injection hload with hb
      subst hb
      assumption
    · exact Except.noConfusion hload
    · exact Except.noConfusion hload
    · exact Except.noConfusion hload
  · exact Except.noConfusion hload
  · exact Except.noConfusion hload

/-- Lookup after stripping finds nothing when every entry under the
key has a skip value. -/
theorem getField_rsv_none {l : List (String × JValue)} {k : String}
    (h : ∀ v, (k, v) ∈ l → isSkipValue v = true) :
    getField (remove_skip_values l) k = none := by
  induction l with
  | nil => rfl
  | cons kv rest ih =>
    obtain ⟨k', v'⟩ := kv
    by_cases hk : k' = k
    · subst hk
      rw [rsv_cons_skip (h v' (List.mem_cons_self _ _))]
      exact ih (fun v hm => h v (List.mem_cons_of_mem _ hm))
    · cases hskip : isSkipValue v' with
      | true =>
        rw [rsv_cons_skip hskip]
        exact ih (fun v hm => h v (List.mem_cons_of_mem _ hm))
      | false =>
        rw [rsv_cons_keep hskip, getField, if_neg hk]
        exact ih (fun v hm => h v (List.mem_cons_of_mem _ hm))

/-- C6: a Branch document without a priority key loads with priority
999, an explicit priority n loads as n, and no default is substituted
on dump: a Branch whose priority attribute is absent dumps with no
priority field at all. -/
theorem C6_branch_priority_default :
    (∀ (data : List (String × JValue)) (b : Branch),
      getField data "priority" = none → loadBranch (.obj data) = .ok b →
      b.priority = some 999) ∧
    (∀ (data : List (String × JValue)) (b : Branch) (n : Int),
      getField data "priority" = some (.int n) → loadBranch (.obj data) = .ok b →
      b.priority = some n) ∧
    (∀ b : Branch, b.priority = none →
      getField (objFields (dumpBranch b)) "priority" = none) := by
  refine ⟨?_, ?_, ?_⟩
  · intro data b hpr hload
    have hp := loadBranch_ok_priority hload
    rw [intFieldD, hpr] at hp
    injection hp with hp2
    exact hp2.symm
  · intro data b n hpr hload
    have hp := loadBranch_ok_priority hload
    rw [intFieldD, hpr] at hp
    injection hp with hp2
    exact hp2.symm
  · intro b hb
    show getField (remove_skip_values
      [("source_id", optInt b.source_id),
       ("destination_id", optInt b.destination_id),
       ("condition", optDump dumpConditionalExpression b.condition),
       ("priority", optInt b.priority),
       ("status", optStr b.status)]) "priority" = none
    apply getField_rsv_none
    intro v hv
    simp only [List.mem_cons, List.not_mem_nil, or_false, Prod.mk.injEq] at hv
    rcases hv with ⟨h1, -⟩ | ⟨h1, -⟩ | ⟨h1, -⟩ | ⟨-, h2⟩ | ⟨h1, -⟩
    · exact absurd h1 (by decide)
    · exact absurd h1 (by decide)
    · exact absurd h1 (by decide)
    · subst h2; rw [hb]; rfl
    · exact absurd h1 (by decide)

/-- Witness for C6: load a Branch document without priority, one with
priority 5, and dump a Branch whose priority attribute is None. -/
theorem C6_branch_priority_default_witness :
    (Branch.mk (some 1) (some 2) none (some 999) (some "Success")).priority = some 999 ∧
    (Branch.mk (some 1) (some 2) none (some 5) (some "Success")).priority = some 5 ∧
    getField (objFields (dumpBranch
      (Branch.mk (some 1) (some 2) none none (some "Success")))) "priority" = none :=
  ⟨C6_branch_priority_default.1
      [("source_id", .int 1), ("destination_id", .int 2)] _ rfl rfl,
   C6_branch_priority_default.2.1
      [("source_id", .int 1), ("destination_id", .int 2), ("priority", .int 5)] _ 5 rfl rfl,
   C6_branch_priority_default.2.2 _ rfl⟩

/-- C7: an operator value outside the allowed set makes the load of a
ConditionalExpression document fail with a validation error naming the
operator field; a value inside the set passes the operator decoder. -/
theorem C7_operator_enum_validation (data : List (String × JValue)) (s : String)
    (hop : getField data "operator" = some (.str s)) :
    (valid_operators.contains s = false →
      loadConditionalExpression (.obj data) =
        .error [("operator", .list [.str "Not a valid choice."])]) ∧
    (valid_operators.contains s = true → operatorField data = .ok s) := by
  constructor
  · intro hmem
    have hof : operatorField data =
        .error [("operator", .list [.str "Not a valid choice."])] := by
      have hs : s ∉ valid_operators := by simpa using hmem
      simp [operatorField, hop, hs]
    rw [loadConditionalExpression, hof]
    cases hbf : boolFieldD data "is_negated" false <;> rfl
  · intro hmem
    have hs : s ∈ valid_operators := by simpa using hmem
    simp [operatorField, hop, hs]

/-- Witness for C7: nand is rejected with an operator-keyed error, xor
is accepted. -/
theorem C7_operator_enum_validation_witness :
    loadConditionalExpression (.obj [("operator", .str "nand")]) =
      .error [("operator", .list [.str "Not a valid choice."])] ∧
    operatorField [("operator", .str "xor")] = .ok "xor" :=
  ⟨(C7_operator_enum_validation [("operator", .str "nand")] "nand" rfl).1 rfl,
   (C7_operator_enum_validation [("operator", .str "xor")] "xor" rfl).2 rfl⟩

/-- A failed required-string decode carries a non-empty error map. -/
theorem reqString_error_ne_nil {data : List (String × JValue)} {k : String} {em : ErrMap}
    (h : reqString data k = .error em) : em ≠ [] := by
  unfold reqString at h
  split at h <;>
    first
      | exact Except.noConfusion h
      | (injection h with h2; subst h2; simp)

/-- A failed list-field load carries a non-empty error map (inner
errors are wrapped under the field's key). -/
theorem listFieldWith_error_ne_nil {f : JValue → Except ErrMap α}
    {data : List (String × JValue)} {key : String} {em : ErrMap}
    (h : listFieldWith f data key = .error em) : em ≠ [] := by
  unfold listFieldWith at h
  split at h
  · exact Except.noConfusion h
  · split at h
    · exact Except.noConfusion h
    · injection h with h2; subst h2; simp
  · injection h with h2; subst h2; simp

/-- A failed Playbook schema load always carries a non-empty error
map: every error constructed by the loader is either a field-keyed
literal or a wrapped child error map under the nested field's key. -/
theorem loadPlaybook_error_ne_nil {v : JValue} {em : ErrMap}
    (h : loadPlaybook v = .error em) : em ≠ [] := by
  simp only [loadPlaybook] at h
  split at h
  · rename_i data
    split at h
    · exact Except.noConfusion h
    · injection h with h2
      subst h2
      exact reqString_error_ne_nil (by assumption)
    · injection h with h2
      subst h2
      exact listFieldWith_error_ne_nil (by assumption)
  · injection h with h2
    subst h2
    simp [schemaTypeError]

/-- C2 (amended): for the entry-point load, an empty error map implies
a non-null constructed tree.  The converse direction of the original
claim fails: see the counterexample, where post-construction
validation errors are recorded while the constructed tree is kept in
the result. -/
theorem C2_errors_empty_implies_tree (v : JValue)
    (h : (elementLoadPlaybook v).errors = []) :
    (elementLoadPlaybook v).data.isSome = true := by
  unfold elementLoadPlaybook at h ⊢
  cases hl : loadPlaybook v with
  | ok p => rfl
  | error em =>
    rw [hl] at h
    exact absurd h (loadPlaybook_error_ne_nil hl)

/-- Witness for C2 (amended): a minimal playbook document loads with
an empty error map and a present tree. -/
theorem C2_errors_empty_implies_tree_witness :
    (elementLoadPlaybook (.obj [("name", .str "p")])).errors = [] ∧
    (elementLoadPlaybook (.obj [("name", .str "p")])).data.isSome = true :=
  ⟨rfl, C2_errors_empty_implies_tree (.obj [("name", .str "p")]) rfl⟩

/-- C2 (counterexample): a playbook document whose workflow passes the
schema load but fails post-construction validation (its branch
destination references no action) is returned with the constructed
tree AND a non-empty error map, so an empty error map is not
equivalent to a non-null tree and a constructed object is returned
together with errors. -/
theorem C2_counterexample :
    (elementLoadPlaybook (.obj
      [("name", .str "p"),
       ("workflows", .list
         [.obj [("name", .str "w"),
                ("actions", .list
                  [.obj [("id", .int 1), ("app_name", .str "a"),
                         ("action_name", .str "b")]]),
                ("branches", .list
                  [.obj [("source_id", .int 1),
                         ("destination_id", .int 7)]])]])])).data.isSome = true ∧
    (elementLoadPlaybook (.obj
      [("name", .str "p"),
       ("workflows", .list
         [.obj [("name", .str "w"),
                ("actions", .list
                  [.obj [("id", .int 1), ("app_name", .str "a"),
                         ("action_name", .str "b")]]),
                ("branches", .list
                  [.obj [("source_id", .int 1),
                         ("destination_id", .int 7)]])]])])).errors ≠ [] := by
  constructor
  · rfl
  · intro hc
    have he : (elementLoadPlaybook (.obj
      [("name", .str "p"),
       ("workflows", .list
         [.obj [("name", .str "w"),
                ("actions", .list
                  [.obj [("id", .int 1), ("app_name", .str "a"),
                         ("action_name", .str "b")]]),
                ("branches", .list
                  [.obj [("source_id", .int 1),
                         ("destination_id", .int 7)]])]])])).errors =
        [("w", .list [.str "Branch destination_id is not an action of this workflow."])] := rfl
    rw [he] at hc
    exact List.noConfusion hc

/-- C5: once the schema load constructs the subtree, the entry point
runs the element validator over the constructed subtree, never raises,
and returns exactly the constructed data together with the validation
errors, each keyed by the violating element's identifying name; every
workflow's validation errors are folded into the returned map. -/
theorem C5_subtree_validation_folded (v : JValue) (p : Playbook)
    (h : loadPlaybook v = .ok p) :
    elementLoadPlaybook v = ⟨some p, playbookValidationErrors p⟩ ∧
    (∀ w ∈ p.workflows, ∀ kv ∈ workflowValidationErrors w,
      kv ∈ (elementLoadPlaybook v).errors) := by
  constructor
  · unfold elementLoadPlaybook
    rw [h]
  · intro w hw kv hkv
    unfold elementLoadPlaybook
    rw [h]
    show kv ∈ playbookValidationErrors p
    unfold playbookValidationErrors
    exact List.mem_flatten.mpr ⟨workflowValidationErrors w, List.mem_map_of_mem _ hw, hkv⟩

/-- Witness for C5: a playbook with one workflow whose branch source
is dangling loads structurally, and the entry point folds the
workflow's validation error (keyed by the workflow's name) into the
returned map while keeping the data. -/
theorem C5_subtree_validation_folded_witness :
    elementLoadPlaybook (.obj
      [("name", .str "pb"),
       ("workflows", .list
         [.obj [("name", .str "wf1"),
                ("actions", .list
                  [.obj [("id", .int 2), ("app_name", .str "app"),
                         ("action_name", .str "act")]]),
                ("branches", .list
                  [.obj [("source_id", .int 9),
                         ("destination_id", .int 2)]])]])]) =
      ⟨some ⟨some "pb",
             [⟨some "wf1",
               [⟨some 2, some "app", some "act", [], none, none⟩],
               [⟨some 9, some 2, none, some 999, some "Success"⟩]⟩]⟩,
        playbookValidationErrors
          ⟨some "pb",
           [⟨some "wf1",
             [⟨some 2, some "app", some "act", [], none, none⟩],
             [⟨some 9, some 2, none, some 999, some "Success"⟩]⟩]⟩⟩ :=
  (C5_subtree_validation_folded
    (.obj
      [("name", .str "pb"),
       ("workflows", .list
         [.obj [("name", .str "wf1"),
                ("actions", .list
                  [.obj [("id", .int 2), ("app_name", .str "app"),
                         ("action_name", .str "act")]]),
                ("branches", .list
                  [.obj [("source_id", .int 9),
                         ("destination_id", .int 2)]])]])])
    ⟨some "pb",
     [⟨some "wf1",
       [⟨some 2, some "app", some "act", [], none, none⟩],
       [⟨some 9, some 2, none, some 999, some "Success"⟩]⟩]⟩ rfl).1

/-- Entries surviving the stripping pass never carry one of the three
stripped shapes. -/
theorem rsv_mem_not_skip_shapes {l : List (String × JValue)} {k : String} {v : JValue}
    (h : (k, v) ∈ remove_skip_values l) :
    ¬(v = .null ∨ v = .list [] ∨ v = .list [.obj []]) := by
  have hf := mem_rsv_skip_false h
  intro hs
  rw [← isSkipValue_iff] at hs
  rw [hf] at hs
  exact Bool.noConfusion hs

/-- C10 (amended): in every dumped element document, the element's own
fields never carry null, an empty sequence, or a sequence holding
exactly one empty mapping (these are exactly the stripped shapes); a
bare empty mapping, however, can appear (see the counterexample), and
contents of raw payload values are not inspected. -/
theorem C10_no_stripped_shapes_in_dumps :
    (∀ (a : Argument) (k : String) (v : JValue),
      (k, v) ∈ objFields (dumpArgument a) →
      ¬(v = .null ∨ v = .list [] ∨ v = .list [.obj []])) ∧
    (∀ (p : Position) (k : String) (v : JValue),
      (k, v) ∈ objFields (dumpPosition p) →
      ¬(v = .null ∨ v = .list [] ∨ v = .list [.obj []])) ∧
    (∀ (t : Transform) (k : String) (v : JValue),
      (k, v) ∈ objFields (dumpTransform t) →
      ¬(v = .null ∨ v = .list [] ∨ v = .list [.obj []])) ∧
    (∀ (c : Condition) (k : String) (v : JValue),
      (k, v) ∈ objFields (dumpCondition c) →
      ¬(v = .null ∨ v = .list [] ∨ v = .list [.obj []])) ∧
    (∀ (e : ConditionalExpression) (k : String) (v : JValue),
      (k, v) ∈ objFields (dumpConditionalExpression e) →
      ¬(v = .null ∨ v = .list [] ∨ v = .list [.obj []])) ∧
    (∀ (b : Branch) (k : String) (v : JValue),
      (k, v) ∈ objFields (dumpBranch b) →
      ¬(v = .null ∨ v = .list [] ∨ v = .list [.obj []])) ∧
    (∀ (a : Action) (k : String) (v : JValue),
      (k, v) ∈ objFields (dumpAction a) →
      ¬(v = .null ∨ v = .list [] ∨ v = .list [.obj []])) ∧
    (∀ (w : Workflow) (k : String) (v : JValue),
      (k, v) ∈ objFields (dumpWorkflow w) →
      ¬(v = .null ∨ v = .list [] ∨ v = .list [.obj []])) ∧
    (∀ (p : Playbook) (k : String) (v : JValue),
      (k, v) ∈ objFields (dumpPlaybook p) →
      ¬(v = .null ∨ v = .list [] ∨ v = .list [.obj []])) := by
  refine ⟨?_, ?_, ?_, ?_, ?_, ?_, ?_, ?_, ?_⟩
  · intro x k v h; exact rsv_mem_not_skip_shapes h
  · intro x k v h; exact rsv_mem_not_skip_shapes h
  · intro x k v h; exact rsv_mem_not_skip_shapes h
  · intro x k v h; exact rsv_mem_not_skip_shapes h
  · intro e k v h
    cases e with
    | mk op neg conds children =>
      rw [dumpConditionalExpression] at h
      exact rsv_mem_not_skip_shapes h
  · intro x k v h; exact rsv_mem_not_skip_shapes h
  · intro x k v h; exact rsv_mem_not_skip_shapes h
  · intro x k v h; exact rsv_mem_not_skip_shapes h
  · intro x k v h; exact rsv_mem_not_skip_shapes h

/-- Witness for C10 (amended): the kept name field of a dumped
Argument is none of the stripped shapes. -/
theorem C10_no_stripped_shapes_in_dumps_witness :
    ¬(JValue.str "n" = .null ∨ JValue.str "n" = .list [] ∨
      JValue.str "n" = .list [.obj []]) :=
  C10_no_stripped_shapes_in_dumps.1 ⟨some "n", some (.int 0), none, []⟩
    "name" (.str "n") (by
      have h : objFields (dumpArgument ⟨some "n", some (.int 0), none, []⟩) =
          [("name", .str "n"), ("value", .int 0)] := rfl
      rw [h]
      simp)

/-- C10 (counterexample): a field carrying a bare empty mapping does
survive in dumped output: an Action whose Position has null
coordinates dumps with a position field whose value is the empty
object, so dumped documents can contain empty-object field values. -/
theorem C10_counterexample :
    ("position", JValue.obj []) ∈
      objFields (dumpAction ⟨none, some "a", some "b", [], none, some ⟨none, none⟩⟩) := by
  have h : objFields (dumpAction ⟨none, some "a", some "b", [], none, some ⟨none, none⟩⟩) =
      [("app_name", .str "a"), ("action_name", .str "b"), ("position", .obj [])] := rfl
  rw [h]
  simp

/-- Null is a skip value. -/
@[simp] theorem isSkipValue_null : isSkipValue .null = true := rfl

/-- Strings are never skip values. -/
@[simp] theorem isSkipValue_str (s : String) : isSkipValue (.str s) = false := rfl

/-- Integers are never skip values. -/
@[simp] theorem isSkipValue_int (n : Int) : isSkipValue (.int n) = false := rfl

/-- Booleans are never skip values. -/
@[simp] theorem isSkipValue_bool (b : Bool) : isSkipValue (.bool b) = false := rfl

/-- Mappings (even empty ones) are never skip values. -/
@[simp] theorem isSkipValue_obj (fs : List (String × JValue)) :
    isSkipValue (.obj fs) = false := rfl

/-- An entry with a non-skip value survives the stripping pass. -/
theorem mem_rsv_of_mem {l : List (String × JValue)} {k : String} {v : JValue}
    (hm : (k, v) ∈ l) (hs : isSkipValue v = false) :
    (k, v) ∈ remove_skip_values l :=
  List.mem_filter.mpr ⟨hm, by simp [hs]⟩

/-- A dumped object with at least one kept field is not the empty
object. -/
theorem obj_rsv_ne_empty {L : List (String × JValue)} {k : String} {v : JValue}
    (hm : (k, v) ∈ L) (hs : isSkipValue v = false) :
    JValue.obj (remove_skip_values L) ≠ .obj [] := by
  intro hc
  injection hc with h2
  exact List.ne_nil_of_mem (mem_rsv_of_mem hm hs) h2

/-- A non-empty sequence other than the singleton empty mapping is not
a skip value. -/
theorem isSkipValue_list_false {xs : List JValue} (hne : xs ≠ [])
    (hno : xs ≠ [.obj []]) : isSkipValue (.list xs) = false := by
  rw [← Bool.not_eq_true, isSkipValue_iff]
  rintro (h | h | h)
  · exact JValue.noConfusion h
  · injection h with h2; exact hne h2
  · injection h with h2; exact hno h2

/-- Non-skip values are in particular not null. -/
theorem jIsNull_false_of_not_skip {v : JValue} (h : isSkipValue v = false) :
    jIsNull v = false := by
  cases v <;> simp_all [isSkipValue, jIsNull]

/-- The empty sequence is a skip value. -/
@[simp] theorem isSkipValue_list_nil : isSkipValue (.list []) = true := rfl

/-- Element-wise loading of element-wise dumped lists recovers the
list. -/
theorem mapExcept_rt {α : Type} {f : JValue → Except ErrMap α} {g : α → JValue}
    (xs : List α) (h : ∀ x ∈ xs, f (g x) = .ok x) :
    mapExcept f (xs.map g) = .ok xs := by
  induction xs with
  | nil => rfl
  | cons x rest ih =>
    rw [List.map_cons, mapExcept, h x (List.mem_cons_self _ _),
      ih (fun y hy => h y (List.mem_cons_of_mem _ hy))]

/-- A mapped non-empty list whose head does not dump to the empty
object is not the singleton empty-mapping sequence. -/
theorem map_cons_ne_single_empty {α : Type} {g : α → JValue} {x : α} {xs : List α}
    (hx : g x ≠ .obj []) : (x :: xs).map g ≠ [.obj []] := by
  intro hc
  rw [List.map_cons] at hc
  injection hc with h1 h2
  exact hx h1

/-- A well-formed Argument dumps with its name kept, hence not to the
empty object. -/
theorem dumpArgument_ne_empty {strict : Bool} {a : Argument}
    (h : wfArgument strict a = true) : dumpArgument a ≠ .obj [] := by
  obtain ⟨nm, hnm⟩ : ∃ nm, a.name = some nm := by
    cases hn : a.name
    · rw [wfArgument, hn] at h; simp at h
    · exact ⟨_, rfl⟩
  rw [dumpArgument]
  exact obj_rsv_ne_empty (k := "name") (v := optStr a.name) (by simp)
    (by rw [hnm]; rfl)

/-- Round-trip for Arguments: a well-formed Argument whose payloads
avoid the skip shapes reloads from its dump unchanged. -/
theorem rtArgument {a : Argument} (h : wfArgument true a = true) :
    loadArgument (dumpArgument a) = .ok a := by
  obtain ⟨name, value, reference, selection⟩ := a
  simp only [wfArgument, Bool.and_eq_true] at h
  obtain ⟨⟨hname, hxor⟩, hstrict⟩ := h
  simp only [Bool.not_true, Bool.false_or, Bool.and_eq_true] at hstrict
  obtain ⟨hval, hselp⟩ := hstrict
  have hsel : selection ≠ [JValue.obj []] := by
    intro hc
    rw [hc] at hselp
    exact Bool.noConfusion hselp
  obtain ⟨nm, rfl⟩ : ∃ nm, name = some nm := by
    cases name
    · exact Bool.noConfusion hname
    · exact ⟨_, rfl⟩
  cases value with
  | some v =>
    have hv : isSkipValue v = false := by
      simpa using hval
    have hvn : jIsNull v = false := jIsNull_false_of_not_skip hv
    cases reference with
    | none =>
      cases selection with
      | nil =>
        simp [dumpArgument, loadArgument, remove_skip_values, List.filter, hv,
          validate_argument, has_value, has_reference, getField, jTruthy,
          reqString, referenceField, selectionField, rawValueField, hvn, optStr]
      | cons s ss =>
        have hsk : isSkipValue (.list (s :: ss)) = false :=
          isSkipValue_list_false (by simp) hsel
        simp [dumpArgument, loadArgument, remove_skip_values, List.filter, hv,
          validate_argument, has_value, has_reference, getField, jTruthy,
          reqString, referenceField, selectionField, rawValueField, hvn, hsk, optStr]
    | some r =>
      have hr : r = "" := by simpa [refTruthy] using hxor
      subst hr
      cases selection with
      | nil =>
        simp [dumpArgument, loadArgument, remove_skip_values, List.filter, hv,
          validate_argument, has_value, has_reference, getField, jTruthy,
          reqString, referenceField, selectionField, rawValueField, hvn, optStr]
      | cons s ss =>
        have hsk : isSkipValue (.list (s :: ss)) = false :=
          isSkipValue_list_false (by simp) hsel
        simp [dumpArgument, loadArgument, remove_skip_values, List.filter, hv,
          validate_argument, has_value, has_reference, getField, jTruthy,
          reqString, referenceField, selectionField, rawValueField, hvn, hsk, optStr]
  | none =>
    cases reference with
    | none => simp [refTruthy] at hxor
    | some r =>
      have hr : r ≠ "" := by simpa [refTruthy] using hxor
      have hrb : (r == "") = false := beq_eq_false_iff_ne.mpr hr
      cases selection with
      | nil =>
        simp [dumpArgument, loadArgument, remove_skip_values, List.filter,
          validate_argument, has_value, has_reference, getField, jTruthy,
          reqString, referenceField, selectionField, rawValueField, hrb, hr, optStr]
      | cons s ss =>
        have hsk : isSkipValue (.list (s :: ss)) = false :=
          isSkipValue_list_false (by simp) hsel
        simp [dumpArgument, loadArgument, remove_skip_values, List.filter,
          validate_argument, has_value, has_reference, getField, jTruthy,
          reqString, referenceField, selectionField, rawValueField, hrb, hr, hsk, optStr]

/-- Round-trip for Positions: both coordinates present reload
unchanged. -/
theorem rtPosition {p : Position} (h : wfPosition p = true) :
    loadPosition (dumpPosition p) = .ok p := by
  obtain ⟨x, y⟩ := p
  simp only [wfPosition, Bool.and_eq_true] at h
  obtain ⟨hx, hy⟩ := h
  obtain ⟨xv, rfl⟩ : ∃ xv, x = some xv := by
    cases x
    · exact Bool.noConfusion hx
    · exact ⟨_, rfl⟩
  obtain ⟨yv, rfl⟩ : ∃ yv, y = some yv := by
    cases y
    · exact Bool.noConfusion hy
    · exact ⟨_, rfl⟩
  simp [dumpPosition, loadPosition, remove_skip_values, List.filter, getField,
    reqInt, optInt]

/-- A well-formed Transform dumps with its app_name kept, hence not to
the empty object. -/
theorem dumpTransform_ne_empty {strict : Bool} {t : Transform}
    (h : wfTransform strict t = true) : dumpTransform t ≠ .obj [] := by
  obtain ⟨an, han⟩ : ∃ an, t.app_name = some an := by
    cases hn : t.app_name
    · rw [wfTransform, hn] at h; simp at h
    · exact ⟨_, rfl⟩
  rw [dumpTransform]
  exact obj_rsv_ne_empty (k := "app_name") (v := optStr t.app_name) (by simp)
    (by rw [han]; rfl)

/-- Round-trip for Transforms. -/
theorem rtTransform {t : Transform} (h : wfTransform true t = true) :
    loadTransform (dumpTransform t) = .ok t := by
  obtain ⟨app, act, args⟩ := t
  simp only [wfTransform, Bool.and_eq_true] at h
  obtain ⟨⟨happ, hact⟩, hargs⟩ := h
  rw [List.all_eq_true] at hargs
  obtain ⟨an, rfl⟩ : ∃ an, app = some an := by
    cases app
    · exact Bool.noConfusion happ
    · exact ⟨_, rfl⟩
  obtain ⟨acn, rfl⟩ : ∃ acn, act = some acn := by
    cases act
    · exact Bool.noConfusion hact
    · exact ⟨_, rfl⟩
  cases args with
  | nil =>
    simp [dumpTransform, loadTransform, remove_skip_values, List.filter, getField,
      reqString, listFieldWith, optStr]
  | cons a rest =>
    have hwa : wfArgument true a = true := hargs a (List.mem_cons_self _ _)
    have hne := dumpArgument_ne_empty hwa
    have hsk : isSkipValue (.list (dumpArgument a :: rest.map dumpArgument)) = false :=
      isSkipValue_list_false (by simp)
        (by intro hc; injection hc with h1 _; exact hne h1)
    have hmap : mapExcept loadArgument (dumpArgument a :: rest.map dumpArgument) =
        .ok (a :: rest) := by
      simpa using mapExcept_rt (a :: rest) (fun x hx => rtArgument (hargs x hx))
    simp [dumpTransform, loadTransform, remove_skip_values, List.filter, getField,
      reqString, listFieldWith, optStr, hsk, hmap]

/-- A well-formed Condition dumps with its app_name kept, hence not to
the empty object. -/
theorem dumpCondition_ne_empty {strict : Bool} {c : Condition}
    (h : wfCondition strict c = true) : dumpCondition c ≠ .obj [] := by
  obtain ⟨an, han⟩ : ∃ an, c.app_name = some an := by
    cases hn : c.app_name
    · rw [wfCondition, hn] at h; simp at h
    · exact ⟨_, rfl⟩
  rw [dumpCondition]
  exact obj_rsv_ne_empty (k := "app_name") (v := optStr c.app_name) (by simp)
    (by rw [han]; rfl)

/-- Round-trip for Conditions. -/
theorem rtCondition {c : Condition} (h : wfCondition true c = true) :
    loadCondition (dumpCondition c) = .ok c := by
  obtain ⟨app, act, neg, transforms, args⟩ := c
  simp only [wfCondition, Bool.and_eq_true] at h
  obtain ⟨⟨⟨⟨happ, hact⟩, hneg⟩, htr⟩, hargs⟩ := h
  rw [List.all_eq_true] at htr hargs
  obtain ⟨an, rfl⟩ : ∃ an, app = some an := by
    cases app
    · exact Bool.noConfusion happ
    · exact ⟨_, rfl⟩
  obtain ⟨acn, rfl⟩ : ∃ acn, act = some acn := by
    cases act
    · exact Bool.noConfusion hact
    · exact ⟨_, rfl⟩
  obtain ⟨nb, rfl⟩ : ∃ nb, neg = some nb := by
    cases neg
    · exact Bool.noConfusion hneg
    · exact ⟨_, rfl⟩
  cases transforms with
  | nil =>
    cases args with
    | nil =>
      simp [dumpCondition, loadCondition, remove_skip_values, List.filter, getField,
        reqString, boolFieldD, listFieldWith, optStr, optBool]
    | cons a rest =>
      have hwa : wfArgument true a = true := hargs a (List.mem_cons_self _ _)
      have hska : isSkipValue (.list (dumpArgument a :: rest.map dumpArgument)) = false :=
        isSkipValue_list_false (by simp)
          (by intro hc; injection hc with h1 _; exact dumpArgument_ne_empty hwa h1)
      have hmapa : mapExcept loadArgument (dumpArgument a :: rest.map dumpArgument) =
          .ok (a :: rest) := by
        simpa using mapExcept_rt (a :: rest) (fun x hx => rtArgument (hargs x hx))
      simp [dumpCondition, loadCondition, remove_skip_values, List.filter, getField,
        reqString, boolFieldD, listFieldWith, optStr, optBool, hska, hmapa]
  | cons t trest =>
    have hwt : wfTransform true t = true := htr t (List.mem_cons_self _ _)
    have hskt : isSkipValue (.list (dumpTransform t :: trest.map dumpTransform)) = false :=
      isSkipValue_list_false (by simp)
        (by intro hc; injection hc with h1 _; exact dumpTransform_ne_empty hwt h1)
    have hmapt : mapExcept loadTransform (dumpTransform t :: trest.map dumpTransform) =
        .ok (t :: trest) := by
      simpa using mapExcept_rt (t :: trest) (fun x hx => rtTransform (htr x hx))
    cases args with
    | nil =>
      simp [dumpCondition, loadCondition, remove_skip_values, List.filter, getField,
        reqString, boolFieldD, listFieldWith, optStr, optBool, hskt, hmapt]
    | cons a rest =>
      have hwa : wfArgument true a = true := hargs a (List.mem_cons_self _ _)
      have hska : isSkipValue (.list (dumpArgument a :: rest.map dumpArgument)) = false :=
        isSkipValue_list_false (by simp)
          (by intro hc; injection hc with h1 _; exact dumpArgument_ne_empty hwa h1)
      have hmapa : mapExcept loadArgument (dumpArgument a :: rest.map dumpArgument) =
          .ok (a :: rest) := by
        simpa using mapExcept_rt (a :: rest) (fun x hx => rtArgument (hargs x hx))
      simp [dumpCondition, loadCondition, remove_skip_values, List.filter, getField,
        reqString, boolFieldD, listFieldWith, optStr, optBool, hskt, hmapt, hska, hmapa]

/-- A well-formed ConditionalExpression dumps with its operator kept,
hence not to the empty object. -/
theorem dumpConditionalExpression_ne_empty {strict : Bool} {e : ConditionalExpression}
    (h : wfConditionalExpression strict e = true) :
    dumpConditionalExpression e ≠ .obj [] := by
  cases e with
  | mk op neg conds children =>
    rw [wfConditionalExpression.eq_def] at h
    simp only [Bool.and_eq_true] at h
    obtain ⟨⟨⟨hop, hneg⟩, hconds⟩, hch⟩ := h
    cases op with
    | none => exact Bool.noConfusion hop
    | some s =>
      rw [dumpConditionalExpression]
      exact obj_rsv_ne_empty (k := "operator") (v := optStr (some s)) (by simp) rfl

/-- Every dump of a ConditionalExpression is an object document. -/
theorem dumpConditionalExpression_isObj (e : ConditionalExpression) :
    ∃ L, dumpConditionalExpression e = .obj L := by
  cases e with
  | mk op neg conds children => exact ⟨_, by rw [dumpConditionalExpression]⟩

/-- Pointwise well-formedness from a well-formed expression list. -/
theorem wfCEList_forall {strict : Bool} {cs : List ConditionalExpression}
    (h : wfCEList strict cs = true) :
    ∀ c ∈ cs, wfConditionalExpression strict c = true := by
  induction cs with
  | nil => intro c hc; exact absurd hc (List.not_mem_nil c)
  | cons c rest ih =>
    rw [wfCEList, Bool.and_eq_true] at h
    intro x hx
    rcases List.mem_cons.mp hx with rfl | hx2
    · exact h.1
    · exact ih h.2 x hx2

/-- Pointwise round-trips lift to the element-wise list loader. -/
theorem rtCEList_of {cs : List ConditionalExpression}
    (h : ∀ c ∈ cs, loadConditionalExpression (dumpConditionalExpression c) = .ok c) :
    loadCEList (dumpCEList cs) = .ok cs := by
  induction cs with
  | nil => simp [dumpCEList, loadCEList]
  | cons c rest ih =>
    have h1 := h c (List.mem_cons_self _ _)
    have h2 := ih (fun x hx => h x (List.mem_cons_of_mem _ hx))
    rw [dumpCEList]
    simp [loadCEList, h1, h2]

/-- Round-trip for ConditionalExpressions, by strong induction on the
size of the expression (the schema nests itself to unbounded depth). -/
theorem rtConditionalExpression_sized :
    ∀ (n : Nat) (e : ConditionalExpression), sizeOf e ≤ n →
      wfConditionalExpression true e = true →
      loadConditionalExpression (dumpConditionalExpression e) = .ok e := by
  intro n
  induction n using Nat.strong_induction_on with
  | _ n ih =>
    intro e hsz hwf
    cases e with
    | mk op neg conds children =>
      rw [wfConditionalExpression.eq_def] at hwf
      simp only [Bool.and_eq_true] at hwf
      obtain ⟨⟨⟨hop, hneg⟩, hconds⟩, hch⟩ := hwf
      rw [List.all_eq_true] at hconds
      obtain ⟨s, rfl⟩ : ∃ s, op = some s := by
        cases op
        · exact Bool.noConfusion hop
        · exact ⟨_, rfl⟩
      obtain ⟨nb, rfl⟩ : ∃ nb, neg = some nb := by
        cases neg
        · exact Bool.noConfusion hneg
        · exact ⟨_, rfl⟩
      have hsin : valid_operators.contains s = true := hop
      have hsmem : s ∈ valid_operators := by simpa using hsin
      have hchw := wfCEList_forall hch
      have hchrt : ∀ c ∈ children,
          loadConditionalExpression (dumpConditionalExpression c) = .ok c := by
        intro c hc
        have h1 := List.sizeOf_lt_of_mem hc
        have hlt : sizeOf c <
            sizeOf (ConditionalExpression.mk (some s) (some nb) conds children) := by
          simp
          omega
        exact ih (sizeOf c) (by omega) c le_rfl (hchw c hc)
      have hcl : loadCEList (dumpCEList children) = .ok children := rtCEList_of hchrt
      cases conds with
      | nil =>
        cases children with
        | nil =>
          simp [dumpConditionalExpression, dumpCEList, loadConditionalExpression,
            remove_skip_values, List.filter, getField, operatorField, boolFieldD,
            listFieldWith, optStr, optBool, hsin, hsmem]
        | cons c crest =>
          have hskch : isSkipValue (.list (dumpCEList (c :: crest))) = false := by
            rw [dumpCEList]
            exact isSkipValue_list_false (by simp)
              (by intro hc2; injection hc2 with h1 _
                  exact dumpConditionalExpression_ne_empty
                    (hchw c (List.mem_cons_self _ _)) h1)
          simp [dumpConditionalExpression, loadConditionalExpression,
            remove_skip_values, List.filter, getField, operatorField, boolFieldD,
            listFieldWith, optStr, optBool, hsin, hsmem, hskch, hcl]
      | cons cd cdrest =>
        have hwc : wfCondition true cd = true := hconds cd (List.mem_cons_self _ _)
        have hskc : isSkipValue (.list (dumpCondition cd :: cdrest.map dumpCondition)) =
            false :=
          isSkipValue_list_false (by simp)
            (by intro hc2; injection hc2 with h1 _
                exact dumpCondition_ne_empty hwc h1)
        have hmapc : mapExcept loadCondition
            (dumpCondition cd :: cdrest.map dumpCondition) = .ok (cd :: cdrest) := by
          simpa using mapExcept_rt (cd :: cdrest) (fun x hx => rtCondition (hconds x hx))
        cases children with
        | nil =>
          simp [dumpConditionalExpression, dumpCEList, loadConditionalExpression,
            remove_skip_values, List.filter, getField, operatorField, boolFieldD,
            listFieldWith, optStr, optBool, hsin, hsmem, hskc, hmapc]
        | cons c crest =>
          have hskch : isSkipValue (.list (dumpCEList (c :: crest))) = false := by
            rw [dumpCEList]
            exact isSkipValue_list_false (by simp)
              (by intro hc2; injection hc2 with h1 _
                  exact dumpConditionalExpression_ne_empty
                    (hchw c (List.mem_cons_self _ _)) h1)
          simp [dumpConditionalExpression, loadConditionalExpression,
            remove_skip_values, List.filter, getField, operatorField, boolFieldD,
            listFieldWith, optStr, optBool, hsin, hsmem, hskc, hmapc, hskch, hcl]

/-- Round-trip for ConditionalExpressions. -/
theorem rtConditionalExpression {e : ConditionalExpression}
    (h : wfConditionalExpression true e = true) :
    loadConditionalExpression (dumpConditionalExpression e) = .ok e :=
  rtConditionalExpression_sized (sizeOf e) e le_rfl h

/-- Round-trip for Branches. -/
theorem rtBranch {b : Branch} (h : wfBranch true b = true) :
    loadBranch (dumpBranch b) = .ok b := by
  obtain ⟨sid, did, cond, prio, st⟩ := b
  simp only [wfBranch, Bool.and_eq_true] at h
  obtain ⟨⟨⟨⟨hsid, hdid⟩, hprio⟩, hst⟩, hcond⟩ := h
  obtain ⟨sv, rfl⟩ : ∃ sv, sid = some sv := by
    cases sid
    · exact Bool.noConfusion hsid
    · exact ⟨_, rfl⟩
  obtain ⟨dv, rfl⟩ : ∃ dv, did = some dv := by
    cases did
    · exact Bool.noConfusion hdid
    · exact ⟨_, rfl⟩
  obtain ⟨pv, rfl⟩ : ∃ pv, prio = some pv := by
    cases prio
    · exact Bool.noConfusion hprio
    · exact ⟨_, rfl⟩
  obtain ⟨sv2, rfl⟩ : ∃ sv2, st = some sv2 := by
    cases st
    · exact Bool.noConfusion hst
    · exact ⟨_, rfl⟩
  cases cond with
  | none =>
    simp [dumpBranch, loadBranch, remove_skip_values, List.filter, getField,
      reqInt, intFieldD, strFieldD, optFieldWith, optInt, optStr, optDump]
  | some e =>
    have hwe : wfConditionalExpression true e = true := hcond
    have hrt := rtConditionalExpression hwe
    obtain ⟨L, hL⟩ := dumpConditionalExpression_isObj e
    rw [hL] at hrt
    simp [dumpBranch, loadBranch, remove_skip_values, List.filter, getField,
      reqInt, intFieldD, strFieldD, optFieldWith, optInt, optStr, optDump, hL, hrt]

/-- A well-formed Action dumps with its app_name kept, hence not to
the empty object. -/
theorem dumpAction_ne_empty {strict : Bool} {a : Action}
    (h : wfAction strict a = true) : dumpAction a ≠ .obj [] := by
  obtain ⟨an, han⟩ : ∃ an, a.app_name = some an := by
    cases hn : a.app_name
    · rw [wfAction, hn] at h; simp at h
    · exact ⟨_, rfl⟩
  rw [dumpAction]
  exact obj_rsv_ne_empty (k := "app_name") (v := optStr a.app_name) (by simp)
    (by rw [han]; rfl)

/-- A well-formed Branch dumps with its source_id kept, hence not to
the empty object. -/
theorem dumpBranch_ne_empty {strict : Bool} {b : Branch}
    (h : wfBranch strict b = true) : dumpBranch b ≠ .obj [] := by
  obtain ⟨sv, hsv⟩ : ∃ sv, b.source_id = some sv := by
    cases hn : b.source_id
    · rw [wfBranch, hn] at h; simp at h
    · exact ⟨_, rfl⟩
  rw [dumpBranch]
  exact obj_rsv_ne_empty (k := "source_id") (v := optInt b.source_id) (by simp)
    (by rw [hsv]; rfl)

/-- A well-formed Workflow dumps with its name kept, hence not to the
empty object. -/
theorem dumpWorkflow_ne_empty {strict : Bool} {w : Workflow}
    (h : wfWorkflow strict w = true) : dumpWorkflow w ≠ .obj [] := by
  obtain ⟨nm, hnm⟩ : ∃ nm, w.name = some nm := by
    cases hn : w.name
    · rw [wfWorkflow, hn] at h; simp at h
    · exact ⟨_, rfl⟩
  rw [dumpWorkflow]
  exact obj_rsv_ne_empty (k := "name") (v := optStr w.name) (by simp)
    (by rw [hnm]; rfl)

/-- Round-trip for Actions. -/
theorem rtAction {a : Action} (h : wfAction true a = true) :
    loadAction (dumpAction a) = .ok a := by
  obtain ⟨idv, app, act, args, trig, pos⟩ := a
  simp only [wfAction, Bool.and_eq_true] at h
  obtain ⟨⟨⟨⟨happ, hact⟩, hargs⟩, htrig⟩, hpos⟩ := h
  rw [List.all_eq_true] at hargs
  obtain ⟨an, rfl⟩ : ∃ an, app = some an := by
    cases app
    · exact Bool.noConfusion happ
    · exact ⟨_, rfl⟩
  obtain ⟨acn, rfl⟩ : ∃ acn, act = some acn := by
    cases act
    · exact Bool.noConfusion hact
    · exact ⟨_, rfl⟩
  cases args with
  | nil =>
    cases trig with
    | none =>
      cases pos with
      | none =>
        cases idv <;>
          simp [dumpAction, loadAction, remove_skip_values, List.filter, getField,
            reqString, idField, listFieldWith, optFieldWith, optStr, optInt, optDump]
      | some p =>
        have hwp : wfPosition p = true := hpos
        have hrtp := rtPosition hwp
        obtain ⟨Lp, hLp⟩ : ∃ L, dumpPosition p = .obj L := ⟨_, rfl⟩
        rw [hLp] at hrtp
        cases idv <;>
          simp [dumpAction, loadAction, remove_skip_values, List.filter, getField,
            reqString, idField, listFieldWith, optFieldWith, optStr, optInt, optDump,
            hLp, hrtp]
    | some e =>
      have hwe : wfConditionalExpression true e = true := htrig
      have hrte := rtConditionalExpression hwe
      obtain ⟨Le, hLe⟩ := dumpConditionalExpression_isObj e
      rw [hLe] at hrte
      cases pos with
      | none =>
        cases idv <;>
          simp [dumpAction, loadAction, remove_skip_values, List.filter, getField,
            reqString, idField, listFieldWith, optFieldWith, optStr, optInt, optDump,
            hLe, hrte]
      | some p =>
        have hwp : wfPosition p = true := hpos
        have hrtp := rtPosition hwp
        obtain ⟨Lp, hLp⟩ : ∃ L, dumpPosition p = .obj L := ⟨_, rfl⟩
        rw [hLp] at hrtp
        cases idv <;>
          simp [dumpAction, loadAction, remove_skip_values, List.filter, getField,
            reqString, idField, listFieldWith, optFieldWith, optStr, optInt, optDump,
            hLe, hrte, hLp, hrtp]
  | cons a1 arest =>
    have hwa : wfArgument true a1 = true := hargs a1 (List.mem_cons_self _ _)
    have hska : isSkipValue (.list (dumpArgument a1 :: arest.map dumpArgument)) = false :=
      isSkipValue_list_false (by simp)
        (by intro hc; injection hc with h1 _; exact dumpArgument_ne_empty hwa h1)
    have hmapa : mapExcept loadArgument (dumpArgument a1 :: arest.map dumpArgument) =
        .ok (a1 :: arest) := by
      simpa using mapExcept_rt (a1 :: arest) (fun x hx => rtArgument (hargs x hx))
    cases trig with
    | none =>
      cases pos with
      | none =>
        cases idv <;>
          simp [dumpAction, loadAction, remove_skip_values, List.filter, getField,
            reqString, idField, listFieldWith, optFieldWith, optStr, optInt, optDump,
            hska, hmapa]
      | some p =>
        have hwp : wfPosition p = true := hpos
        have hrtp := rtPosition hwp
        obtain ⟨Lp, hLp⟩ : ∃ L, dumpPosition p = .obj L := ⟨_, rfl⟩
        rw [hLp] at hrtp
        cases idv <;>
          simp [dumpAction, loadAction, remove_skip_values, List.filter, getField,
            reqString, idField, listFieldWith, optFieldWith, optStr, optInt, optDump,
            hska, hmapa, hLp, hrtp]
    | some e =>
      have hwe : wfConditionalExpression true e = true := htrig
      have hrte := rtConditionalExpression hwe
      obtain ⟨Le, hLe⟩ := dumpConditionalExpression_isObj e
      rw [hLe] at hrte
      cases pos with
      | none =>
        cases idv <;>
          simp [dumpAction, loadAction, remove_skip_values, List.filter, getField,
            reqString, idField, listFieldWith, optFieldWith, optStr, optInt, optDump,
            hska, hmapa, hLe, hrte]
      | some p =>
        have hwp : wfPosition p = true := hpos
        have hrtp := rtPosition hwp
        obtain ⟨Lp, hLp⟩ : ∃ L, dumpPosition p = .obj L := ⟨_, rfl⟩
        rw [hLp] at hrtp
        cases idv <;>
          simp [dumpAction, loadAction, remove_skip_values, List.filter, getField,
            reqString, idField, listFieldWith, optFieldWith, optStr, optInt, optDump,
            hska, hmapa, hLe, hrte, hLp, hrtp]

/-- Round-trip for Workflows. -/
theorem rtWorkflow {w : Workflow} (h : wfWorkflow true w = true) :
    loadWorkflow (dumpWorkflow w) = .ok w := by
  obtain ⟨name, actions, branches⟩ := w
  simp only [wfWorkflow, Bool.and_eq_true] at h
  obtain ⟨⟨⟨hname, hacts⟩, hbrs⟩, hrefs⟩ := h
  rw [List.all_eq_true] at hacts hbrs
  obtain ⟨nm, rfl⟩ : ∃ nm, name = some nm := by
    cases name
    · exact Bool.noConfusion hname
    · exact ⟨_, rfl⟩
  cases actions with
  | nil =>
    cases branches with
    | nil =>
      simp [dumpWorkflow, loadWorkflow, remove_skip_values, List.filter, getField,
        reqString, listFieldWith, optStr]
    | cons b brest =>
      have hwb : wfBranch true b = true := hbrs b (List.mem_cons_self _ _)
      have hskb : isSkipValue (.list (dumpBranch b :: brest.map dumpBranch)) = false :=
        isSkipValue_list_false (by simp)
          (by intro hc; injection hc with h1 _; exact dumpBranch_ne_empty hwb h1)
      have hmapb : mapExcept loadBranch (dumpBranch b :: brest.map dumpBranch) =
          .ok (b :: brest) := by
        simpa using mapExcept_rt (b :: brest) (fun x hx => rtBranch (hbrs x hx))
      simp [dumpWorkflow, loadWorkflow, remove_skip_values, List.filter, getField,
        reqString, listFieldWith, optStr, hskb, hmapb]
  | cons ac acrest =>
    have hwac : wfAction true ac = true := hacts ac (List.mem_cons_self _ _)
    have hskac : isSkipValue (.list (dumpAction ac :: acrest.map dumpAction)) = false :=
      isSkipValue_list_false (by simp)
        (by intro hc; injection hc with h1 _; exact dumpAction_ne_empty hwac h1)
    have hmapac : mapExcept loadAction (dumpAction ac :: acrest.map dumpAction) =
        .ok (ac :: acrest) := by
      simpa using mapExcept_rt (ac :: acrest) (fun x hx => rtAction (hacts x hx))
    cases branches with
    | nil =>
      simp [dumpWorkflow, loadWorkflow, remove_skip_values, List.filter, getField,
        reqString, listFieldWith, optStr, hskac, hmapac]
    | cons b brest =>
      have hwb : wfBranch true b = true := hbrs b (List.mem_cons_self _ _)
      have hskb : isSkipValue (.list (dumpBranch b :: brest.map dumpBranch)) = false :=
        isSkipValue_list_false (by simp)
          (by intro hc; injection hc with h1 _; exact dumpBranch_ne_empty hwb h1)
      have hmapb : mapExcept loadBranch (dumpBranch b :: brest.map dumpBranch) =
          .ok (b :: brest) := by
        simpa using mapExcept_rt (b :: brest) (fun x hx => rtBranch (hbrs x hx))
      simp [dumpWorkflow, loadWorkflow, remove_skip_values, List.filter, getField,
        reqString, listFieldWith, optStr, hskac, hmapac, hskb, hmapb]

/-- Round-trip for Playbooks. -/
theorem rtPlaybook {p : Playbook} (h : wfPlaybook true p = true) :
    loadPlaybook (dumpPlaybook p) = .ok p := by
  obtain ⟨name, workflows⟩ := p
  simp only [wfPlaybook, Bool.and_eq_true] at h
  obtain ⟨hname, hwfs⟩ := h
  rw [List.all_eq_true] at hwfs
  obtain ⟨nm, rfl⟩ : ∃ nm, name = some nm := by
    cases name
    · exact Bool.noConfusion hname
    · exact ⟨_, rfl⟩
  cases workflows with
  | nil =>
    simp [dumpPlaybook, loadPlaybook, remove_skip_values, List.filter, getField,
      reqString, listFieldWith, optStr]
  | cons w wrest =>
    have hww : wfWorkflow true w = true := hwfs w (List.mem_cons_self _ _)
    have hskw : isSkipValue (.list (dumpWorkflow w :: wrest.map dumpWorkflow)) = false :=
      isSkipValue_list_false (by simp)
        (by intro hc; injection hc with h1 _; exact dumpWorkflow_ne_empty hww h1)
    have hmapw : mapExcept loadWorkflow (dumpWorkflow w :: wrest.map dumpWorkflow) =
        .ok (w :: wrest) := by
      simpa using mapExcept_rt (w :: wrest) (fun x hx => rtWorkflow (hwfs x hx))
    simp [dumpPlaybook, loadPlaybook, remove_skip_values, List.filter, getField,
      reqString, listFieldWith, optStr, hskw, hmapw]

/-- A workflow whose branch references resolve produces no validation
errors. -/
theorem workflowValidationErrors_nil {w : Workflow} (h : branchRefsOk w = true) :
    workflowValidationErrors w = [] := by
  simp only [branchRefsOk, List.all_eq_true, Bool.and_eq_true] at h
  unfold workflowValidationErrors
  have h1 : ∀ b ∈ w.branches,
      (match b.source_id with
       | some n => if (w.actions.filterMap Action.id).contains n then none
                   else some (JValue.str "Branch source_id is not an action of this workflow.")
       | none => none) = (none : Option JValue) := by
    intro b hb
    obtain ⟨hs, hd⟩ := h b hb
    cases hsb : b.source_id with
    | none => rfl
    | some n =>
      rw [hsb] at hs
      have hs2 : (List.filterMap Action.id w.actions).contains n = true := hs
      exact if_pos hs2
  have h2 : ∀ b ∈ w.branches,
      (match b.destination_id with
       | some n => if (w.actions.filterMap Action.id).contains n then none
                   else some (JValue.str "Branch destination_id is not an action of this workflow.")
       | none => none) = (none : Option JValue) := by
    intro b hb
    obtain ⟨hs, hd⟩ := h b hb
    cases hdb : b.destination_id with
    | none => rfl
    | some n =>
      rw [hdb] at hd
      have hd2 : (List.filterMap Action.id w.actions).contains n = true := hd
      exact if_pos hd2
  rw [List.filterMap_eq_nil_iff.mpr h1, List.filterMap_eq_nil_iff.mpr h2]
  rfl

/-- Well-formed workflow lists produce no validation errors. -/
theorem wfList_validationErrors_nil {strict : Bool} :
    ∀ (ws : List Workflow), (∀ w ∈ ws, wfWorkflow strict w = true) →
      (ws.map workflowValidationErrors).flatten = [] := by
  intro ws
  induction ws with
  | nil => intro h; rfl
  | cons w wrest ih =>
    intro h
    have hw := h w (List.mem_cons_self _ _)
    simp only [wfWorkflow, Bool.and_eq_true] at hw
    rw [List.map_cons, List.flatten_cons, workflowValidationErrors_nil hw.2,
      ih (fun x hx => h x (List.mem_cons_of_mem _ hx))]
    rfl

/-- A well-formed playbook produces no validation errors. -/
theorem playbookValidationErrors_nil {strict : Bool} {p : Playbook}
    (h : wfPlaybook strict p = true) : playbookValidationErrors p = [] := by
  simp only [wfPlaybook, Bool.and_eq_true, List.all_eq_true] at h
  obtain ⟨-, hwfs⟩ := h
  unfold playbookValidationErrors
  exact wfList_validationErrors_nil p.workflows hwfs

/-- C3 (amended): a well-formed object tree whose raw payloads avoid
the skip-value shapes (an Argument value that is none of null, the
empty sequence, or a sequence of one empty mapping, and a selection
other than the sequence of one empty mapping) reloads from its dump to
an equal tree with an empty error map.  The payload restriction is
forced by the counterexample below: stripping erases payloads of those
shapes, which the loader cannot reconstruct. -/
theorem C3_roundtrip (p : Playbook) (h : wfPlaybook true p = true) :
    elementLoadPlaybook (dumpPlaybook p) = ⟨some p, []⟩ := by
  have hrt : loadPlaybook (dumpPlaybook p) = .ok p := rtPlaybook h
  have hval : playbookValidationErrors p = [] := playbookValidationErrors_nil h
  unfold elementLoadPlaybook
  rw [hrt]
  show UnmarshalResult.mk (some p) (playbookValidationErrors p) = UnmarshalResult.mk (some p) []
  rw [hval]

/-- Witness for C3 (amended): a playbook exercising a workflow with an
action (argument, position, identifier) and a branch reloads from its
dump unchanged. -/
theorem C3_roundtrip_witness :
    wfPlaybook true
      ⟨some "p",
       [⟨some "w",
         [⟨some 1, some "app", some "act",
           [⟨some "n", some (.int 5), none, []⟩], none, some ⟨some 0, some 2⟩⟩],
         [⟨some 1, some 1, none, some 5, some "Ok"⟩]⟩]⟩ = true ∧
    elementLoadPlaybook (dumpPlaybook
      ⟨some "p",
       [⟨some "w",
         [⟨some 1, some "app", some "act",
           [⟨some "n", some (.int 5), none, []⟩], none, some ⟨some 0, some 2⟩⟩],
         [⟨some 1, some 1, none, some 5, some "Ok"⟩]⟩]⟩) =
      ⟨some ⟨some "p",
       [⟨some "w",
         [⟨some 1, some "app", some "act",
           [⟨some "n", some (.int 5), none, []⟩], none, some ⟨some 0, some 2⟩⟩],
         [⟨some 1, some 1, none, some 5, some "Ok"⟩]⟩]⟩, []⟩ :=
  ⟨rfl,
   C3_roundtrip
     ⟨some "p",
      [⟨some "w",
        [⟨some 1, some "app", some "act",
          [⟨some "n", some (.int 5), none, []⟩], none, some ⟨some 0, some 2⟩⟩],
        [⟨some 1, some 1, none, some 5, some "Ok"⟩]⟩]⟩ rfl⟩

/-- C3 (counterexample): the round-trip fails as originally claimed: a
well-formed playbook (per the data model, without the payload-shape
restriction) containing an Argument whose raw value is the empty
sequence dumps with that value stripped, and the reload then fails the
mutual-exclusivity check, returning a null tree instead of an equal
tree. -/
theorem C3_counterexample :
    wfPlaybook false
      ⟨some "p",
       [⟨some "w",
         [⟨none, some "x", some "y",
           [⟨some "a", some (.list []), none, []⟩], none, none⟩], []⟩]⟩ = true ∧
    (elementLoadPlaybook (dumpPlaybook
      ⟨some "p",
       [⟨some "w",
         [⟨none, some "x", some "y",
           [⟨some "a", some (.list []), none, []⟩], none, none⟩], []⟩]⟩)).data = none :=
  ⟨rfl, rfl⟩

end WalkoffSchemas
